import Mathlib

/-!
# Verification of the PHANTOM authorization & execution pipeline

Shallow embedding of the PhantomVault ledger, the PhantomAccount delegated
execution agent, the PhantomPaymaster fee sponsor, and the
PhantomAccountFactory, together with theorems settling the frozen claims
about them.

Machine integers (`uint256`, `bytes32`, `address`, `bytes4`, `uint48`) are
modelled as `Nat`; byte strings (`bytes`) as `List Nat` of byte values.
Keccak-256 and ECDSA recovery are not computable here, so each hash or
recovery primitive used by the contracts is an explicit parameter of the
model (a field of a crypto-model structure); the control flow around them
is translated from the source verbatim.  Reverting calls are modelled with
`Except`: an `error` result corresponds to a revert, which in the EVM rolls
back every state write of the call (atomicity), so the post-state of a
reverted call is the pre-state.
-/

set_option maxRecDepth 20000

namespace Phantom

/-- Big-endian interpretation of a list of byte values as a natural number
(the EVM's word interpretation of a byte string). -/
def beBytes (bs : List Nat) : Nat :=
  bs.foldl (fun a b => a * 256 + b) 0

/-- `calldataload`-style read of a 32-byte word starting at byte offset
`off`: bytes past the end of the data read as zero. -/
def word32At (bs : List Nat) (off : Nat) : Nat :=
  beBytes ((bs.drop off).take 32 ++ List.replicate (32 - ((bs.drop off).take 32).length) 0)

/-- Distinguishes the `require(...)`-style string reverts appearing in the
source from the contracts' typed custom errors. -/
inductive RequireError
  | invalidSignatureLength
  | invalidPaymasterDataLength
deriving DecidableEq

/-! ## PhantomVault: data model -/

/-- `PhantomVault.RiskReport` (struct). -/
structure RiskReport where
  portfolioScore : Nat
  concentrationRisk : Nat
  protocolRisk : Nat
  correlationRisk : Nat
  liquidityRisk : Nat
  leverageRatio : Nat
  timestamp : Nat
  teeAttestation : List Nat
deriving DecidableEq

/-- `PhantomVault.Portfolio` (struct). -/
structure Portfolio where
  owner : Nat
  protectedDataId : Nat
  lastAnalysis : Nat
  riskScore : Nat
  autoRebalance : Bool
  rebalanceThreshold : Nat
  createdAt : Nat
deriving DecidableEq

/-- `PhantomVault.Strategy` (struct). -/
structure Strategy where
  strategyHash : Nat
  targetAssets : List Nat
  allocations : List Nat
  teeSignature : List Nat
  validUntil : Nat
  executed : Bool
deriving DecidableEq

/-- Solidity mapping default for `Portfolio` (all fields zero). -/
def emptyPortfolio : Portfolio :=
  { owner := 0, protectedDataId := 0, lastAnalysis := 0, riskScore := 0
    autoRebalance := false, rebalanceThreshold := 0, createdAt := 0 }

/-- Solidity mapping default for `Strategy` (all fields zero / empty). -/
def emptyStrategy : Strategy :=
  { strategyHash := 0, targetAssets := [], allocations := []
    teeSignature := [], validUntil := 0, executed := false }

/-- Storage of the `PhantomVault` contract.  Mappings are total functions
with the Solidity zero default. -/
structure VaultState where
  portfolios : Nat → Portfolio
  strategies : Nat → Strategy
  riskHistory : Nat → List RiskReport
  trustedIApp : Nat
  trustedWorkerpool : Nat
  minRebalanceInterval : Nat
  executionFeeBps : Nat
  feeRecipient : Nat
  totalPortfolios : Nat
  totalStrategiesExecuted : Nat
  paused : Bool

/-- The vault's typed custom errors, plus `EnforcedPause` (from OpenZeppelin
`Pausable.whenNotPaused`) and the internal `require` reverts. -/
inductive VaultError
  | PortfolioNotFound
  | StrategyExpired
  | StrategyAlreadyExecuted
  | InvalidTEESignature
  | RebalanceTooFrequent
  | UnauthorizedCaller
  | InvalidParameters
  | InsufficientBalance
  | EnforcedPause
  | Require (e : RequireError)
deriving DecidableEq

/-- The cryptographic primitives the vault uses, kept abstract: keccak-256
hash computations (fused with their `abi.encode` argument packing) and the
`ecrecover` precompile (arguments: message hash, v, r, s). -/
structure CryptoModel where
  fingerprint : Nat → List Nat → List Nat → Nat → Nat
  reportMsgHash : Nat → RiskReport → Nat
  strategyMsgHash : Nat → Nat → List Nat → Nat
  ecrecover : Nat → Nat → Nat → Nat → Nat

/-- `PhantomVault._recoverSigner`: requires a 65-byte signature, then splits
it into `r` (bytes 0..32), `s` (bytes 32..64), `v` (byte 64) and calls
`ecrecover`.  The failed `require` is a revert, modelled as `error`. -/
def recoverSigner (ecr : Nat → Nat → Nat → Nat → Nat) (messageHash : Nat)
    (signature : List Nat) : Except RequireError Nat :=
  if signature.length = 65 then
    .ok (ecr messageHash (beBytes ((signature.drop 64).take 1))
      (beBytes (signature.take 32)) (beBytes ((signature.drop 32).take 32)))
  else .error .invalidSignatureLength

/-- `PhantomVault._verifyTEESignature`: recover from the prefixed message
hash over `(user, report)` and compare with `trustedIApp`. -/
def verifyTEESignature (cm : CryptoModel) (trustedIApp user : Nat)
    (report : RiskReport) (signature : List Nat) : Except RequireError Bool :=
  (recoverSigner cm.ecrecover (cm.reportMsgHash user report) signature).map
    (fun recovered => recovered == trustedIApp)

/-- `PhantomVault._verifyStrategySignature`: recover from the prefixed
message hash over `(user, strategy.strategyHash, strategy.targetAssets)`
and compare with `trustedIApp`. -/
def verifyStrategySignature (cm : CryptoModel) (trustedIApp user : Nat)
    (strat : Strategy) (signature : List Nat) : Except RequireError Bool :=
  (recoverSigner cm.ecrecover
      (cm.strategyMsgHash user strat.strategyHash strat.targetAssets) signature).map
    (fun recovered => recovered == trustedIApp)

/-- The externally callable mutating operations of the vault that the claims
quantify over.  The first `Nat` argument of each constructor is
`msg.sender`. -/
inductive VaultOp
  | createPortfolio (sender : Nat) (protectedDataId : Nat) (autoRebalance : Bool)
      (rebalanceThreshold : Nat)
  | updatePortfolio (sender : Nat) (newProtectedDataId : Nat) (autoRebalance : Bool)
      (rebalanceThreshold : Nat)
  | submitRiskAnalysis (sender : Nat) (user : Nat) (report : RiskReport) (sig : List Nat)
  | submitStrategy (sender : Nat) (targetAssets : List Nat) (allocations : List Nat)
      (sig : List Nat) (validityPeriod : Nat)
  | executeStrategy (sender : Nat) (strategyHash : Nat)
  | triggerAutoRebalance (sender : Nat) (user : Nat) (deviation : Nat)
      (strat : Strategy) (sig : List Nat)
deriving DecidableEq

/-- One vault call at timestamp `t` (`block.timestamp`).  Returns the
post-state on success and the revert reason on failure; a revert leaves the
storage untouched.  Each branch is translated from the corresponding
external function of `PhantomVault`; `_executeRebalance` is the source's
empty placeholder and performs no state change. -/
def runVault (cm : CryptoModel) (s : VaultState) (t : Nat) :
    VaultOp → Except VaultError VaultState
  | .createPortfolio sender dataRef auto thr =>
    if s.paused then .error .EnforcedPause
    else if dataRef = 0 then .error .InvalidParameters
    else if thr > 5000 then .error .InvalidParameters
    else .ok { s with
      portfolios := fun a => if a = sender then
          { owner := sender, protectedDataId := dataRef, lastAnalysis := 0
            riskScore := 0, autoRebalance := auto, rebalanceThreshold := thr
            createdAt := t }
        else s.portfolios a
      totalPortfolios := s.totalPortfolios + 1 }
  | .updatePortfolio sender dataRef auto thr =>
    if s.paused then .error .EnforcedPause
    else
      let p := s.portfolios sender
      if p.owner = 0 then .error .PortfolioNotFound
      else .ok { s with
        portfolios := fun a => if a = sender then
            { p with
              protectedDataId := if dataRef ≠ 0 then dataRef else p.protectedDataId
              autoRebalance := auto, rebalanceThreshold := thr }
          else s.portfolios a }
  | .submitRiskAnalysis _sender user report sig =>
    if s.paused then .error .EnforcedPause
    else match verifyTEESignature cm s.trustedIApp user report sig with
      | .error e => .error (.Require e)
      | .ok verified =>
        if verified = false then .error .InvalidTEESignature
        else
          let p := s.portfolios user
          if p.owner = 0 then .error .PortfolioNotFound
          else .ok { s with
            portfolios := fun a => if a = user then
                { p with lastAnalysis := t, riskScore := report.portfolioScore }
              else s.portfolios a
            riskHistory := fun a => if a = user then s.riskHistory a ++ [report]
              else s.riskHistory a }
  | .submitStrategy sender targets allocs sig period =>
    if s.paused then .error .EnforcedPause
    else if targets.length ≠ allocs.length then .error .InvalidParameters
    else if period > 86400 then .error .InvalidParameters
    else if (s.portfolios sender).owner = 0 then .error .PortfolioNotFound
    else
      let h := cm.fingerprint sender targets allocs t
      .ok { s with
        strategies := fun a => if a = h then
            { strategyHash := h, targetAssets := targets, allocations := allocs
              teeSignature := sig, validUntil := t + period, executed := false }
          else s.strategies a }
  | .executeStrategy _sender h =>
    if s.paused then .error .EnforcedPause
    else
      let strat := s.strategies h
      if strat.strategyHash = 0 then .error .InvalidParameters
      else if strat.executed then .error .StrategyAlreadyExecuted
      else if t > strat.validUntil then .error .StrategyExpired
      else .ok { s with
        strategies := fun a => if a = h then { strat with executed := true }
          else s.strategies a
        totalStrategiesExecuted := s.totalStrategiesExecuted + 1 }
  | .triggerAutoRebalance _sender user deviation strat sig =>
    if s.paused then .error .EnforcedPause
    else
      let p := s.portfolios user
      if p.autoRebalance = false then .error .UnauthorizedCaller
      else if deviation < p.rebalanceThreshold then .error .InvalidParameters
      else if t < p.lastAnalysis + s.minRebalanceInterval then .error .RebalanceTooFrequent
      else match verifyStrategySignature cm s.trustedIApp user strat sig with
        | .error e => .error (.Require e)
        | .ok verified =>
          if verified = false then .error .InvalidTEESignature
          else .ok { s with
            strategies := fun a => if a = strat.strategyHash then
                { strat with executed := true }
              else s.strategies a
            totalStrategiesExecuted := s.totalStrategiesExecuted + 1 }

/-- Post-state of a vault call: the new storage on success, the unchanged
pre-state on revert. -/
def stepVault (cm : CryptoModel) (s : VaultState) (t : Nat) (op : VaultOp) : VaultState :=
  match runVault cm s t op with
  | .ok s' => s'
  | .error _ => s

/-- Serial execution of a list of timestamped vault calls (the ledger's
total ordering of transactions). -/
def execTrace (cm : CryptoModel) : VaultState → List (Nat × VaultOp) → VaultState
  | s, [] => s
  | s, (t, op) :: rest => execTrace cm (stepVault cm s t op) rest

/-- `PhantomVault.isStrategyValid`. -/
def isStrategyValid (s : VaultState) (t h : Nat) : Bool :=
  (s.strategies h).strategyHash != 0 &&
    !(s.strategies h).executed &&
    decide (t ≤ (s.strategies h).validUntil)

/-- State produced by the `PhantomVault` constructor. -/
def initVault (trustedIApp trustedWorkerpool feeRecipient : Nat) : VaultState :=
  { portfolios := fun _ => emptyPortfolio
    strategies := fun _ => emptyStrategy
    riskHistory := fun _ => []
    trustedIApp := trustedIApp
    trustedWorkerpool := trustedWorkerpool
    minRebalanceInterval := 3600
    executionFeeBps := 10
    feeRecipient := feeRecipient
    totalPortfolios := 0
    totalStrategiesExecuted := 0
    paused := false }

/-! ## PhantomAccount: delegated execution agent -/

/-- `PhantomAccount.SessionKey` (struct). -/
structure SessionKey where
  key : Nat
  validUntil : Nat
  spendLimit : Nat
  spent : Nat
  allowedTargets : List Nat
  allowedSelectors : List Nat
  active : Bool
deriving DecidableEq

/-- Solidity mapping default for `SessionKey`. -/
def emptySessionKey : SessionKey :=
  { key := 0, validUntil := 0, spendLimit := 0, spent := 0
    allowedTargets := [], allowedSelectors := [], active := false }

/-- Storage of a `PhantomAccount` instance. -/
structure AccountState where
  owner : Nat
  phantomVault : Nat
  sessionKeys : Nat → SessionKey
  activeSessionKeys : List Nat

/-- The fields of a `PackedUserOperation` read by `PhantomAccount`'s
validation. -/
structure PAUserOp where
  signature : List Nat
  callData : List Nat
deriving DecidableEq

/-- OpenZeppelin's `toEthSignedMessageHash` and `ECDSA.recover`, kept
abstract (`recover` takes the prefixed hash and the signature bytes and
yields the recovered address). -/
structure AccountCrypto where
  ethSigned : Nat → Nat
  recover : Nat → List Nat → Nat

/-- `BaseAccount.SIG_VALIDATION_FAILED`. -/
def SIG_VALIDATION_FAILED : Nat := 1

/-- The 4-byte selector of `execute(address,uint256,bytes)`
(`this.execute.selector`). -/
def executeSelector : Nat := 0xb61d27f6

/-- `PhantomAccount._validateSessionKeyOp`: for `execute`-wrapped calls,
decode the inner target (bytes 4..36 of the call data, as an address) and
require membership in the key's allowed-target list; any other call data of
length ≥ 4 passes.  Note the source never consults
`session.allowedSelectors`. -/
def validateSessionKeyOp (session : SessionKey) (userOp : PAUserOp) : Bool :=
  if userOp.callData.length < 4 then false
  else
    let selector := beBytes (userOp.callData.take 4)
    if selector = executeSelector then
      if userOp.callData.length < 36 then false
      else
        let target := beBytes ((userOp.callData.drop 4).take 32) % 2 ^ 160
        session.allowedTargets.contains target
    else true

/-- `PhantomAccount._validateSignature` at timestamp `t`: owner signature
authorizes unconditionally; otherwise the recovered address is looked up as
a session key, which must be active and unexpired and pass
`validateSessionKeyOp`.  Returns `0` for success and
`SIG_VALIDATION_FAILED` otherwise. -/
def validateSignature (ac : AccountCrypto) (s : AccountState) (t : Nat)
    (userOp : PAUserOp) (userOpHash : Nat) : Nat :=
  let hash := ac.ethSigned userOpHash
  if userOp.signature.length < 65 then SIG_VALIDATION_FAILED
  else
    let recovered := ac.recover hash userOp.signature
    if recovered = s.owner then 0
    else
      let session := s.sessionKeys recovered
      if session.active && decide (t ≤ session.validUntil) then
        if validateSessionKeyOp session userOp then 0 else SIG_VALIDATION_FAILED
      else SIG_VALIDATION_FAILED

/-- `PhantomAccount`'s typed errors used by the modelled operations. -/
inductive AccountError
  | NotOwner
deriving DecidableEq

/-- `PhantomAccount.createSessionKey` (owner-only). -/
def createSessionKey (caller : Nat) (key validUntil spendLimit : Nat)
    (allowedTargets allowedSelectors : List Nat) (s : AccountState) :
    Except AccountError AccountState :=
  if caller ≠ s.owner then .error .NotOwner
  else .ok { s with
    sessionKeys := fun a => if a = key then
        { key := key, validUntil := validUntil, spendLimit := spendLimit
          spent := 0, allowedTargets := allowedTargets
          allowedSelectors := allowedSelectors, active := true }
      else s.sessionKeys a
    activeSessionKeys := s.activeSessionKeys ++ [key] }

/-- `PhantomAccount.revokeSessionKey` (owner-only): clears the `active`
flag of the stored session key, whatever its prior state. -/
def revokeSessionKey (caller : Nat) (key : Nat) (s : AccountState) :
    Except AccountError AccountState :=
  if caller ≠ s.owner then .error .NotOwner
  else .ok { s with
    sessionKeys := fun a => if a = key then
        { s.sessionKeys key with active := false }
      else s.sessionKeys a }

/-- `PhantomAccount.isSessionKeyActive`. -/
def isSessionKeyActive (s : AccountState) (t : Nat) (key : Nat) : Bool :=
  (s.sessionKeys key).active && decide (t ≤ (s.sessionKeys key).validUntil)

/-! ## PhantomPaymaster: fee sponsor -/

/-- The fields of a `PackedUserOperation` read by the paymaster. -/
structure PMUserOp where
  sender : Nat
  nonce : Nat
  callData : List Nat
  paymasterAndData : List Nat
deriving DecidableEq

/-- Storage of the `PhantomPaymaster` contract (plus its `Ownable` owner). -/
structure PaymasterState where
  pmOwner : Nat
  verifyingSigner : Nat
  phantomVault : Nat
  sponsoredTxCount : Nat → Nat
  maxDailySponsored : Nat
  dailyResetTime : Nat → Nat
  whitelistedSelectors : Nat → Bool

/-- The paymaster's typed errors, the `require` revert on short paymaster
data, and `OwnableUnauthorizedAccount` for admin calls. -/
inductive PMError
  | InvalidSignature
  | DailyLimitExceeded
  | SelectorNotWhitelisted
  | InvalidTarget
  | OwnableUnauthorized
  | Require (e : RequireError)
deriving DecidableEq

/-- The paymaster's abstract crypto: `getHash` fuses
`keccak256(abi.encode(sender, nonce, keccak256(callData), chainid,
address(this), validUntil, validAfter))` for the fixed chain and paymaster
instance; `recover` fuses `toEthSignedMessageHash` with `ECDSA.recover`. -/
structure PMCrypto where
  getHash : PMUserOp → Nat → Nat → Nat
  recover : Nat → List Nat → Nat

/-- `PhantomPaymaster._getTarget`: the 32-byte word at offset 16 of the call
data, taken as an address (low 160 bits); zero when the call data is shorter
than 36 bytes. -/
def getTarget (callData : List Nat) : Nat :=
  if 36 ≤ callData.length then word32At callData 16 % 2 ^ 160 else 0

/-- `PhantomPaymaster._getSelector`: the first four bytes of the call data;
zero when shorter than 4 bytes. -/
def getSelector (callData : List Nat) : Nat :=
  if 4 ≤ callData.length then beBytes (callData.take 4) else 0

/-- `PAYMASTER_DATA_OFFSET` from the account-abstraction
`UserOperationLib` (20-byte paymaster address + two 16-byte gas fields). -/
def PAYMASTER_DATA_OFFSET : Nat := 52

/-- `PhantomPaymaster._checkAndUpdateDailyLimit` at timestamp `t`: opening a
new day window (strictly more than one day past the stored reset time)
stores the current time as the reset time and sets the count to 1;
otherwise the count must be strictly below `maxDailySponsored` and is
incremented, else the call reverts `DailyLimitExceeded`. -/
def checkAndUpdateDailyLimit (s : PaymasterState) (user : Nat) (t : Nat) :
    Except PMError PaymasterState :=
  if t > s.dailyResetTime user + 86400 then
    .ok { s with
      dailyResetTime := fun u => if u = user then t else s.dailyResetTime u
      sponsoredTxCount := fun u => if u = user then 1 else s.sponsoredTxCount u }
  else
    if s.sponsoredTxCount user ≥ s.maxDailySponsored then .error .DailyLimitExceeded
    else .ok { s with
      sponsoredTxCount := fun u => if u = user then s.sponsoredTxCount u + 1
        else s.sponsoredTxCount u }

/-- The signature slice of the paymaster data
(`paymasterData[0:65]`). -/
def pmSignature (userOp : PMUserOp) : List Nat :=
  ((userOp.paymasterAndData.drop PAYMASTER_DATA_OFFSET).take 65)

/-- The `validUntil` field of the paymaster data
(`uint48(bytes6(paymasterData[65:71]))`). -/
def pmValidUntil (userOp : PMUserOp) : Nat :=
  beBytes (((userOp.paymasterAndData.drop PAYMASTER_DATA_OFFSET).drop 65).take 6)

/-- The `validAfter` field of the paymaster data
(`uint48(bytes6(paymasterData[71:77]))`). -/
def pmValidAfter (userOp : PMUserOp) : Nat :=
  beBytes (((userOp.paymasterAndData.drop PAYMASTER_DATA_OFFSET).drop 71).take 6)

/-- The values returned by a successful `_validatePaymasterUserOp`: the
`abi.encode(userOp.sender, maxCost)` context and the unpacked
`_packValidationData(false, validUntil, validAfter)`. -/
structure PMAccept where
  contextSender : Nat
  contextMaxCost : Nat
  validUntil : Nat
  validAfter : Nat
deriving DecidableEq

/-- `PhantomPaymaster._validatePaymasterUserOp` at timestamp `t`: checks the
paymaster-data length, the sponsorship co-signature, the decoded target,
the decoded selector's whitelist membership, and the daily limit, in the
source's order; on success returns the context and validation data together
with the updated counters. -/
def validatePaymasterUserOp (pc : PMCrypto) (s : PaymasterState) (t : Nat)
    (userOp : PMUserOp) (maxCost : Nat) : Except PMError (PMAccept × PaymasterState) :=
  let paymasterData := userOp.paymasterAndData.drop PAYMASTER_DATA_OFFSET
  if paymasterData.length < 77 then .error (.Require .invalidPaymasterDataLength)
  else
    let validUntil := pmValidUntil userOp
    let validAfter := pmValidAfter userOp
    let recovered := pc.recover (pc.getHash userOp validUntil validAfter) (pmSignature userOp)
    if recovered ≠ s.verifyingSigner then .error .InvalidSignature
    else if getTarget userOp.callData ≠ s.phantomVault then .error .InvalidTarget
    else if s.whitelistedSelectors (getSelector userOp.callData) = false then
      .error .SelectorNotWhitelisted
    else
      (checkAndUpdateDailyLimit s userOp.sender t).map fun s' =>
        ({ contextSender := userOp.sender, contextMaxCost := maxCost
           validUntil := validUntil, validAfter := validAfter }, s')

/-- Post-state of a paymaster validation call: updated counters on accept,
unchanged state on revert. -/
def pmPostState (pc : PMCrypto) (s : PaymasterState) (t : Nat)
    (userOp : PMUserOp) (maxCost : Nat) : PaymasterState :=
  match validatePaymasterUserOp pc s t userOp maxCost with
  | .ok (_, s') => s'
  | .error _ => s

/-- `PhantomPaymaster.setMaxDailySponsored` (owner-only). -/
def setMaxDailySponsored (caller : Nat) (m : Nat) (s : PaymasterState) :
    Except PMError PaymasterState :=
  if caller ≠ s.pmOwner then .error .OwnableUnauthorized
  else .ok { s with maxDailySponsored := m }

/-- State produced by the `PhantomPaymaster` constructor; `sel₁ … sel₄` are
the keccak-derived selectors of the four whitelisted vault functions
(abstract byte values). -/
def initPaymaster (owner verifyingSigner phantomVault sel₁ sel₂ sel₃ sel₄ : Nat) :
    PaymasterState :=
  { pmOwner := owner
    verifyingSigner := verifyingSigner
    phantomVault := phantomVault
    sponsoredTxCount := fun _ => 0
    maxDailySponsored := 10
    dailyResetTime := fun _ => 0
    whitelistedSelectors := fun sel => sel = sel₁ || sel = sel₂ || sel = sel₃ || sel = sel₄ }

/-- Modelled from the spec: the "same-day sponsored count" of a user at
time `t` — the stored count while the current day window is open, zero once
the window has lapsed.  Used to compare the paymaster's decision against
the spec's four acceptance conditions. -/
def specSamedayCount (s : PaymasterState) (user t : Nat) : Nat :=
  if t > s.dailyResetTime user + 86400 then 0 else s.sponsoredTxCount user

/-! ## PhantomAccountFactory -/

/-- The factory's abstract crypto: `create2Address salt codeHash` is the
CREATE2 address derivation `keccak256(0xff ++ factory ++ salt ++ codeHash)`
for the fixed factory instance, and `initCodeHash impl owner` is
`keccak256(creationCode ++ abi.encode(impl, initializeCall owner))` of the
ERC1967 proxy. -/
structure FactoryCrypto where
  create2Address : Nat → Nat → Nat
  initCodeHash : Nat → Nat → Nat

/-- Storage of the `PhantomAccountFactory` plus the chain's code-presence
map at the addresses it may deploy to. -/
structure FactoryState where
  accountImplementation : Nat
  ownerToAccount : Nat → Nat
  totalAccounts : Nat
  code : Nat → Bool

/-- `PhantomAccountFactory.getAddress`: pure CREATE2 derivation from the
implementation, the owner (via the initializer call in the proxy's
constructor arguments) and the salt. -/
def getAddress (fc : FactoryCrypto) (s : FactoryState) (owner salt : Nat) : Nat :=
  fc.create2Address salt (fc.initCodeHash s.accountImplementation owner)

/-- `PhantomAccountFactory.createAccount`: returns the existing account if
code is already present at the derived address, otherwise deploys the proxy
there (EVM CREATE2 places the new code exactly at the derived address) and
records it. -/
def createAccount (fc : FactoryCrypto) (s : FactoryState) (owner salt : Nat) :
    Nat × FactoryState :=
  let addr := getAddress fc s owner salt
  if s.code addr then (addr, s)
  else
    (addr, { s with
      code := fun a => if a = addr then true else s.code a
      ownerToAccount := fun o => if o = owner then addr else s.ownerToAccount o
      totalAccounts := s.totalAccounts + 1 })

/-! ## Concrete instances used by witnesses and counterexamples -/

/-- Concrete vault crypto: every strategy fingerprint is 5 and `ecrecover`
always yields address 9 (so a vault trusting iApp 9 accepts every 65-byte
signature).  Collisions of the constant fingerprint are never relied on:
the concrete traces below only reuse a fingerprint by repeating the exact
same `(sender, targets, allocations, timestamp)` tuple, where any function
collides. -/
def cmW : CryptoModel :=
  { fingerprint := fun _ _ _ _ => 5
    reportMsgHash := fun _ _ => 0
    strategyMsgHash := fun _ _ _ => 0
    ecrecover := fun _ _ _ _ => 9 }

/-- Vault state right after construction with trusted iApp 9. -/
def sV0 : VaultState := initVault 9 0 0

/-- A 65-byte signature blob. -/
def sig65 : List Nat := List.replicate 65 0

/-- Vault state after user 1 creates a portfolio (data reference 1,
auto-rebalance on, threshold 0) at time 0. -/
def sV1 : VaultState := stepVault cmW sV0 0 (.createPortfolio 1 1 true 0)

/-- Vault state after user 1 additionally submits a strategy (empty target
and allocation lists, validity period 100) at time 0; under `cmW` its
fingerprint is 5 and its deadline 100. -/
def sV2 : VaultState := stepVault cmW sV1 0 (.submitStrategy 1 [] [] sig65 100)

/-- Vault state after additionally executing strategy 5 at time 0. -/
def sV3 : VaultState := stepVault cmW sV2 0 (.executeStrategy 1 5)

/-- Vault state after user 1 re-submits the identical strategy tuple at the
same timestamp 0, which recomputes the same fingerprint 5 and overwrites
the executed record with a fresh unexecuted one. -/
def sV4 : VaultState := stepVault cmW sV3 0 (.submitStrategy 1 [] [] sig65 100)

/-- Computation rule for `Except.isOk` on a success value. -/
theorem exceptOk_isOk {ε α : Type} (a : α) : (Except.ok a : Except ε α).isOk = true := rfl

/-- Computation rule for `Except.isOk` on an error value. -/
theorem exceptError_isOk {ε α : Type} (e : ε) : (Except.error e : Except ε α).isOk = false := rfl

/-- Helper used by several proofs: a successful vault call determines the
`stepVault` post-state. -/
theorem stepVault_of_ok {cm : CryptoModel} {s s' : VaultState} {t : Nat} {op : VaultOp}
    (h : runVault cm s t op = .ok s') : stepVault cm s t op = s' := by
  simp [stepVault, h]

/-- Helper: a reverted vault call leaves the state unchanged. -/
theorem stepVault_of_error {cm : CryptoModel} {s : VaultState} {t : Nat} {op : VaultOp}
    {e : VaultError} (h : runVault cm s t op = .error e) : stepVault cm s t op = s := by
  simp [stepVault, h]

/-! ## C1 — session keys: selector scope is never enforced -/

/-- Concrete account crypto: the prefixed hash is the identity and every
signature recovers to address 2. -/
def acW : AccountCrypto := { ethSigned := fun h => h, recover := fun _ _ => 2 }

/-- Account owned by 1, with a session key at address 2 whose scope is
target list `[3]` and selector list `[10]`. -/
def accW : AccountState :=
  { owner := 1
    phantomVault := 3
    sessionKeys := fun a => if a = 2 then
        { key := 2, validUntil := 1000, spendLimit := 0, spent := 0
          allowedTargets := [3], allowedSelectors := [10], active := true }
      else emptySessionKey
    activeSessionKeys := [2] }

/-- `execute(3, 0, innerCall)` call data: the `execute` selector, the target
word (3), the value word (0), the offset word (0x60), the length word (4),
then the inner call bytes whose selector `0xdeadbeef` is not in the session
key's allowed-selector list. -/
def opW : PAUserOp :=
  { signature := List.replicate 65 0
    callData := [0xb6, 0x1d, 0x27, 0xf6]
      ++ (List.replicate 31 0 ++ [3])
      ++ List.replicate 32 0
      ++ (List.replicate 31 0 ++ [0x60])
      ++ (List.replicate 31 0 ++ [4])
      ++ [0xde, 0xad, 0xbe, 0xef] }

/-- C1: the agent's signature validation never consults a session key's
allowed-selector list.  At the concrete failing input — a user operation
signed by active, unexpired session key 2, wrapping a single call to
allowed target 3 whose inner selector `0xdeadbeef` (and whose outer
selector, `execute`'s) is not in the key's allowed-selector list `[10]` —
validation nevertheless authorizes the operation (returns 0), although the
claim requires rejection whenever the selector is outside the list.  The
stored `allowedSelectors` field and the declared `SelectorNotAllowed` error
of the source are never used by `_validateSignature` /
`_validateSessionKeyOp`. -/
theorem validateSignature_ignores_selector_scope :
    validateSignature acW accW 0 opW 99 = 0
  ∧ (accW.sessionKeys 2).allowedSelectors = [10]
  ∧ (accW.sessionKeys 2).active = true
  ∧ (accW.sessionKeys 2).allowedTargets = [3]
  ∧ beBytes (opW.callData.take 4) = executeSelector
  ∧ beBytes ((opW.callData.drop 4).take 32) % 2 ^ 160 = 3
  ∧ beBytes ((opW.callData.drop 132).take 4) = 0xdeadbeef
  ∧ ¬ (0xdeadbeef ∈ (accW.sessionKeys 2).allowedSelectors)
  ∧ ¬ (executeSelector ∈ (accW.sessionKeys 2).allowedSelectors) := by
  refine ⟨?_, ?_, ?_, ?_, ?_, ?_, ?_, ?_, ?_⟩ <;> decide

/-! ## C4 — the threshold bound is enforced by create but not by update -/

/-- C4 (amended): `createPortfolio` rejects any threshold above 5000 with
`InvalidParameters` and only ever stores thresholds at most 5000, leaving
other portfolios untouched; `updatePortfolio` performs no threshold
validation and stores the given threshold verbatim, whatever its size. -/
theorem createPortfolio_bounds_threshold_update_does_not (cm : CryptoModel)
    (s : VaultState) (t sender dataRef thr : Nat) (auto : Bool) :
    (s.paused = false → thr > 5000 →
      runVault cm s t (.createPortfolio sender dataRef auto thr) = .error .InvalidParameters)
  ∧ (∀ s', runVault cm s t (.createPortfolio sender dataRef auto thr) = .ok s' →
      (s'.portfolios sender).rebalanceThreshold = thr ∧ thr ≤ 5000 ∧
        ∀ a, a ≠ sender → s'.portfolios a = s.portfolios a)
  ∧ (∀ s', runVault cm s t (.updatePortfolio sender dataRef auto thr) = .ok s' →
      (s'.portfolios sender).rebalanceThreshold = thr) := by
  refine ⟨?_, ?_, ?_⟩
  · intro hp hthr
    simp [runVault, hp, hthr]
  · intro s' h
    simp only [runVault] at h
    split at h
    · exact absurd h (by simp)
    · split at h
      · exact absurd h (by simp)
      · split at h
        · exact absurd h (by simp)
        · rename_i hp hz hb
          simp only [Except.ok.injEq] at h
          subst h
          refine ⟨by simp, by omega, ?_⟩
          intro a ha
          simp [ha]
  · intro s' h
    simp only [runVault] at h
    split at h
    · exact absurd h (by simp)
    · split at h
      · exact absurd h (by simp)
      · simp only [Except.ok.injEq] at h
        subst h
        simp

/-- C4 witness for the amended theorem at a concrete input: in the
constructed vault, creating a portfolio with threshold 6000 fails
`InvalidParameters`. -/
theorem createPortfolio_bounds_threshold_witness :
    sV0.paused = false ∧ 6000 > 5000 ∧
      runVault cmW sV0 0 (.createPortfolio 1 1 true 6000) = .error .InvalidParameters :=
  ⟨by decide, by decide,
    (createPortfolio_bounds_threshold_update_does_not cmW sV0 0 1 1 6000 true).1
      (by decide) (by decide)⟩

/-- C4 counterexample: after user 1 creates a portfolio with threshold 0,
`updatePortfolio` with threshold 6000 succeeds (instead of reverting
`InvalidParameters`) and the stored threshold becomes 6000 > 5000,
violating the claimed invariant. -/
theorem updatePortfolio_stores_threshold_6000 :
    (runVault cmW sV1 0 (.updatePortfolio 1 0 true 6000)).isOk = true
  ∧ ((stepVault cmW sV1 0 (.updatePortfolio 1 0 true 6000)).portfolios 1).rebalanceThreshold
      = 6000 := by
  refine ⟨?_, ?_⟩ <;> decide

/-! ## C6 — malformed signature length reverts instead of returning -/

/-- C6 (amended): for every message hash and every signature whose length
is not 65 bytes, `_recoverSigner` reverts with the require message
`Invalid signature length` — it raises an exception rather than returning
a non-matching address. -/
theorem recoverSigner_rejects_bad_length (ecr : Nat → Nat → Nat → Nat → Nat)
    (messageHash : Nat) (signature : List Nat) (h : signature.length ≠ 65) :
    recoverSigner ecr messageHash signature = .error .invalidSignatureLength := by
  simp [recoverSigner, h]

/-- C6 witness: a 10-byte signature is rejected by the length check. -/
theorem recoverSigner_rejects_bad_length_witness :
    (List.replicate 10 0).length ≠ 65 ∧
      recoverSigner (fun _ _ _ _ => 3) 7 (List.replicate 10 0)
        = .error .invalidSignatureLength :=
  ⟨by decide, recoverSigner_rejects_bad_length (fun _ _ _ _ => 3) 7 (List.replicate 10 0)
    (by decide)⟩

/-- C6 counterexample: on a 64-byte signature `_recoverSigner` reverts (the
claim says it must return a non-matching address and never raise an
exception on malformed length). -/
theorem recoverSigner_len64_reverts :
    recoverSigner (fun _ _ _ _ => 0) 0 (List.replicate 64 0)
        = .error .invalidSignatureLength
  ∧ (recoverSigner (fun _ _ _ _ => 0) 0 (List.replicate 64 0)).isOk = false := by
  refine ⟨?_, ?_⟩ <;> rfl

/-! ## C8 — factory address derivation and idempotence -/

/-- C8: `createAccount` always ends up at the pure derivation
`getAddress`; if code is already present there it returns the existing
account with no state change; after any call, code is present at the
derived address; and a repeated call returns the same address with no
further state change — so at most one agent ever exists per
`(owner, salt)` pair. -/
theorem createAccount_matches_getAddress_and_idempotent (fc : FactoryCrypto)
    (s : FactoryState) (owner salt : Nat) :
    (createAccount fc s owner salt).1 = getAddress fc s owner salt
  ∧ (s.code (getAddress fc s owner salt) = true →
      createAccount fc s owner salt = (getAddress fc s owner salt, s))
  ∧ (createAccount fc s owner salt).2.code (getAddress fc s owner salt) = true
  ∧ createAccount fc (createAccount fc s owner salt).2 owner salt
      = ((createAccount fc s owner salt).1, (createAccount fc s owner salt).2) := by
  unfold createAccount getAddress
  by_cases h : s.code (fc.create2Address salt (fc.initCodeHash s.accountImplementation owner))
  · simp [h]
  · simp [h]

/-- C8 witness at a concrete input: code already present at the derived
address, so `createAccount` returns it unchanged. -/
theorem createAccount_matches_getAddress_witness :
    ({ accountImplementation := 4, ownerToAccount := fun _ => 0, totalAccounts := 0
       code := fun _ => true } : FactoryState).code
        (getAddress { create2Address := fun _ _ => 8, initCodeHash := fun _ _ => 0 }
          { accountImplementation := 4, ownerToAccount := fun _ => 0, totalAccounts := 0
            code := fun _ => true } 1 2) = true ∧
    createAccount { create2Address := fun _ _ => 8, initCodeHash := fun _ _ => 0 }
        { accountImplementation := 4, ownerToAccount := fun _ => 0, totalAccounts := 0
          code := fun _ => true } 1 2
      = (getAddress { create2Address := fun _ _ => 8, initCodeHash := fun _ _ => 0 }
          { accountImplementation := 4, ownerToAccount := fun _ => 0, totalAccounts := 0
            code := fun _ => true } 1 2,
         { accountImplementation := 4, ownerToAccount := fun _ => 0, totalAccounts := 0
           code := fun _ => true }) :=
  ⟨rfl, (createAccount_matches_getAddress_and_idempotent
    { create2Address := fun _ _ => 8, initCodeHash := fun _ _ => 0 }
    { accountImplementation := 4, ownerToAccount := fun _ => 0, totalAccounts := 0
      code := fun _ => true } 1 2).2.1 rfl⟩

/-! ## C9 — executeStrategy is caller-independent -/

/-- C9: `executeStrategy` performs no caller-identity check — two calls by
distinct senders from the same state at the same time produce identical
outcomes (same success state or same typed error), and any sender
succeeds on a known, unexecuted, unexpired strategy while the vault is not
paused. -/
theorem executeStrategy_caller_independent (cm : CryptoModel) (s : VaultState)
    (t h c₁ c₂ : Nat) :
    runVault cm s t (.executeStrategy c₁ h) = runVault cm s t (.executeStrategy c₂ h)
  ∧ (s.paused = false → (s.strategies h).strategyHash ≠ 0 →
      (s.strategies h).executed = false → t ≤ (s.strategies h).validUntil →
      (runVault cm s t (.executeStrategy c₁ h)).isOk = true) := by
  constructor
  · rfl
  · intro hp hh he ht
    simp [runVault, hp, hh, he, Nat.not_lt.mpr ht, Except.isOk, Except.toBool]

/-- C9 witness: in the concrete vault holding an unexecuted strategy with
fingerprint 5 and deadline 100, any caller's execution at time 0
succeeds. -/
theorem executeStrategy_caller_independent_witness :
    (sV2.paused = false ∧ (sV2.strategies 5).strategyHash ≠ 0 ∧
      (sV2.strategies 5).executed = false ∧ 0 ≤ (sV2.strategies 5).validUntil) ∧
    runVault cmW sV2 0 (.executeStrategy 77 5) = runVault cmW sV2 0 (.executeStrategy 88 5) ∧
    (runVault cmW sV2 0 (.executeStrategy 77 5)).isOk = true :=
  ⟨⟨by decide, by decide, by decide, by decide⟩,
    (executeStrategy_caller_independent cmW sV2 0 5 77 88).1,
    (executeStrategy_caller_independent cmW sV2 0 5 77 88).2
      (by decide) (by decide) (by decide) (by decide)⟩

/-! ## C10 — revocation is total and idempotent -/

/-- Rewriting the `active` flag of an already-inactive key is the identity
on the record. -/
theorem SessionKey.deactivate_inactive (k : SessionKey) (h : k.active = false) :
    { k with active := false } = k := by
  cases k
  simp_all

/-- C10: owner-called revocation succeeds for every key address (including
never-created and already-revoked keys), afterwards `isSessionKeyActive` is
false at every time, revoking an already-inactive key leaves the state
unchanged, and a second revocation changes nothing further. -/
theorem revokeSessionKey_total_idempotent (s : AccountState) (caller key : Nat)
    (hc : caller = s.owner) :
    ∃ s', revokeSessionKey caller key s = .ok s'
      ∧ (∀ t, isSessionKeyActive s' t key = false)
      ∧ ((s.sessionKeys key).active = false → s' = s)
      ∧ revokeSessionKey caller key s' = .ok s' := by
  refine ⟨{ s with sessionKeys := fun a => if a = key then
      { s.sessionKeys key with active := false } else s.sessionKeys a }, ?_, ?_, ?_, ?_⟩
  · simp [revokeSessionKey, hc]
  · intro t
    simp [isSessionKeyActive]
  · intro hact
    have hfun : (fun a => if a = key then { s.sessionKeys key with active := false }
        else s.sessionKeys a) = s.sessionKeys := by
      funext a
      by_cases ha : a = key
      · subst ha
        simp [SessionKey.deactivate_inactive _ hact]
      · simp [ha]
    rw [hfun]
  · simp only [revokeSessionKey, hc]
    rw [if_neg (by simp)]
    congr 1
    congr 1
    funext a
    by_cases ha : a = key
    · subst ha
      simp
    · simp [ha]

/-- C10 witness: in the concrete account (owner 1), revoking the live
session key 2 succeeds, deactivates it, and revoking again is a no-op. -/
theorem revokeSessionKey_total_idempotent_witness :
    (1 : Nat) = accW.owner ∧
    ∃ s', revokeSessionKey 1 2 accW = .ok s'
      ∧ (∀ t, isSessionKeyActive s' t 2 = false)
      ∧ ((accW.sessionKeys 2).active = false → s' = accW)
      ∧ revokeSessionKey 1 2 s' = .ok s' :=
  ⟨rfl, revokeSessionKey_total_idempotent accW 1 2 rfl⟩

/-! ## C3 — paymaster acceptance is the conjunction of four conditions -/

/-- C3: with well-formed paymaster data and a positive daily cap, the
paymaster accepts a user operation exactly when the co-signature recovers
to the verifying signer, the decoded target is the vault, the decoded
selector is whitelisted, and the sender's same-day sponsored count is below
the cap; and a rejected operation leaves the counters (the whole paymaster
state) unchanged. -/
theorem validatePaymaster_accepts_iff (pc : PMCrypto) (s : PaymasterState) (t : Nat)
    (userOp : PMUserOp) (maxCost : Nat)
    (hlen : 77 ≤ (userOp.paymasterAndData.drop PAYMASTER_DATA_OFFSET).length)
    (hmax : 1 ≤ s.maxDailySponsored) :
    ((validatePaymasterUserOp pc s t userOp maxCost).isOk = true ↔
      (pc.recover (pc.getHash userOp (pmValidUntil userOp) (pmValidAfter userOp))
          (pmSignature userOp) = s.verifyingSigner
        ∧ getTarget userOp.callData = s.phantomVault
        ∧ s.whitelistedSelectors (getSelector userOp.callData) = true
        ∧ specSamedayCount s userOp.sender t < s.maxDailySponsored))
  ∧ ((validatePaymasterUserOp pc s t userOp maxCost).isOk = false →
      pmPostState pc s t userOp maxCost = s) := by
  have hnl : ¬ (userOp.paymasterAndData.drop PAYMASTER_DATA_OFFSET).length < 77 := by omega
  constructor
  · simp only [validatePaymasterUserOp]
    rw [if_neg hnl]
    split_ifs with h₁ h₂ h₃
    · rw [exceptError_isOk]
      exact ⟨fun hfalse => absurd hfalse (by simp), fun hc => (h₁ hc.1).elim⟩
    · rw [exceptError_isOk]
      exact ⟨fun hfalse => absurd hfalse (by simp), fun hc => (h₂ hc.2.1).elim⟩
    · rw [exceptError_isOk]
      refine ⟨fun hfalse => absurd hfalse (by simp), fun hc => ?_⟩
      rw [hc.2.2.1] at h₃
      exact absurd h₃ (by simp)
    · have h₁e := not_not.mp h₁
      have h₂e := not_not.mp h₂
      have h₅ : s.whitelistedSelectors (getSelector userOp.callData) = true := by
        cases hws : s.whitelistedSelectors (getSelector userOp.callData)
        · exact absurd hws h₃
        · rfl
      simp only [checkAndUpdateDailyLimit, specSamedayCount]
      split_ifs with hw hc
      · simp only [Except.map, exceptOk_isOk, true_iff]
        exact ⟨h₁e, h₂e, h₅, by omega⟩
      · simp only [Except.map, exceptError_isOk]
        exact ⟨fun hfalse => absurd hfalse (by simp), fun hcon => absurd hcon.2.2.2 (by omega)⟩
      · simp only [Except.map, exceptOk_isOk, true_iff]
        exact ⟨h₁e, h₂e, h₅, by omega⟩
  · intro hko
    unfold pmPostState
    split
    · rename_i v s' hv
      rw [hv, exceptOk_isOk] at hko
      exact absurd hko (by simp)
    · rfl

/-- Concrete paymaster crypto: every signature recovers to address 7. -/
def pcW : PMCrypto := { getHash := fun _ _ _ => 0, recover := fun _ _ => 7 }

/-- Paymaster as constructed with owner 1, verifying signer 7, vault 3 and
whitelisted selectors 0, 11, 12, 13. -/
def pmW : PaymasterState := initPaymaster 1 7 3 0 11 12 13

/-- A user operation whose decoded target (the address word read at byte
offset 16) is the vault 3, whose decoded selector is 0, and whose
paymaster data is 77 zero bytes after the 52-byte prefix. -/
def pmOpW : PMUserOp :=
  { sender := 5, nonce := 0
    callData := List.replicate 47 0 ++ [3]
    paymasterAndData := List.replicate 129 0 }

/-- C3 witness: the concrete operation satisfies all four conditions and is
accepted, incrementing the sender's count to 1. -/
theorem validatePaymaster_accepts_iff_witness :
    (77 ≤ (pmOpW.paymasterAndData.drop PAYMASTER_DATA_OFFSET).length
      ∧ 1 ≤ pmW.maxDailySponsored)
  ∧ (validatePaymasterUserOp pcW pmW 0 pmOpW 5).isOk = true
  ∧ (pmPostState pcW pmW 0 pmOpW 5).sponsoredTxCount 5 = 1 :=
  ⟨⟨by decide, by decide⟩,
    ((validatePaymaster_accepts_iff pcW pmW 0 pmOpW 5 (by decide) (by decide)).1).mpr
      ⟨by decide, by decide, by decide, by decide⟩,
    by decide⟩

/-! ## C7 — daily window reset and the cap invariant -/

/-- Paymaster state after the administrator lowers the daily cap to 0
(used by the C3 and C7 counterexamples). -/
def pmWzero : PaymasterState :=
  match setMaxDailySponsored 1 0 pmW with
  | .ok s => s
  | .error _ => pmW

/-- C3 counterexample: with the daily cap configured to 0 by the owner, an
operation that opens a new day window and meets the signature, target and
selector conditions is accepted although the sender's same-day sponsored
count (0) is not below the cap (0) — the claimed four-way equivalence
fails at this reachable configuration. -/
theorem validatePaymaster_cap_zero_accepts :
    pmWzero.maxDailySponsored = 0
  ∧ ¬ specSamedayCount pmWzero 5 86401 < pmWzero.maxDailySponsored
  ∧ (validatePaymasterUserOp pcW pmWzero 86401 pmOpW 7).isOk = true
  ∧ (pmPostState pcW pmWzero 86401 pmOpW 7).sponsoredTxCount 5 = 1 := by
  refine ⟨?_, ?_, ?_, ?_⟩ <;> decide

/-- C7 (amended): a sponsorship check that opens a new day window stores
the current time as the reset time and sets the count to 1 (not 0); with a
fixed cap of at least 1, every successful check preserves the bound
`count ≤ cap` for every user; and an in-window check at a count at or above
the cap reverts `DailyLimitExceeded`.  (The new-window reset performs no
cap comparison, so a cap of 0 — reachable via `setMaxDailySponsored` — can
be exceeded; see the counterexample.) -/
theorem dailyLimit_reset_to_one_and_bounded (s : PaymasterState) (user t : Nat)
    (hmax : 1 ≤ s.maxDailySponsored) :
    (t > s.dailyResetTime user + 86400 →
      ∃ s', checkAndUpdateDailyLimit s user t = .ok s'
        ∧ s'.sponsoredTxCount user = 1 ∧ s'.dailyResetTime user = t)
  ∧ (∀ s', checkAndUpdateDailyLimit s user t = .ok s' →
      (∀ u, s.sponsoredTxCount u ≤ s.maxDailySponsored) →
      ∀ u, s'.sponsoredTxCount u ≤ s'.maxDailySponsored)
  ∧ (¬ t > s.dailyResetTime user + 86400 →
      s.sponsoredTxCount user ≥ s.maxDailySponsored →
      checkAndUpdateDailyLimit s user t = .error .DailyLimitExceeded) := by
  refine ⟨?_, ?_, ?_⟩
  · intro hw
    refine ⟨{ s with
        dailyResetTime := fun u => if u = user then t else s.dailyResetTime u
        sponsoredTxCount := fun u => if u = user then 1 else s.sponsoredTxCount u }, ?_, ?_, ?_⟩
    · simp [checkAndUpdateDailyLimit, hw]
    · simp
    · simp
  · intro s' hok hinv u
    simp only [checkAndUpdateDailyLimit] at hok
    split at hok
    · simp only [Except.ok.injEq] at hok
      subst hok
      by_cases hu : u = user
      · subst hu
        show (if u = u then 1 else s.sponsoredTxCount u) ≤ s.maxDailySponsored
        rw [if_pos rfl]
        omega
      · show (if u = user then 1 else s.sponsoredTxCount u) ≤ s.maxDailySponsored
        rw [if_neg hu]
        exact hinv u
    · split at hok
      · exact absurd hok (by simp)
      · rename_i hcnt
        simp only [Except.ok.injEq] at hok
        subst hok
        by_cases hu : u = user
        · subst hu
          show (if u = u then s.sponsoredTxCount u + 1 else s.sponsoredTxCount u)
            ≤ s.maxDailySponsored
          rw [if_pos rfl]
          omega
        · show (if u = user then s.sponsoredTxCount u + 1 else s.sponsoredTxCount u)
            ≤ s.maxDailySponsored
          rw [if_neg hu]
          exact hinv u
  · intro hw hcnt
    simp [checkAndUpdateDailyLimit, hw, hcnt]

/-- C7 witness: on the freshly constructed paymaster (cap 10), a check by
user 5 at time 86401 opens a new window and sets the count to 1. -/
theorem dailyLimit_reset_to_one_witness :
    (1 ≤ pmW.maxDailySponsored ∧ 86401 > pmW.dailyResetTime 5 + 86400)
  ∧ ∃ s', checkAndUpdateDailyLimit pmW 5 86401 = .ok s'
      ∧ s'.sponsoredTxCount 5 = 1 ∧ s'.dailyResetTime 5 = 86401 :=
  ⟨⟨by decide, by decide⟩,
    (dailyLimit_reset_to_one_and_bounded pmW 5 86401 (by decide)).1 (by decide)⟩

/-- Post-state of the counterexample sponsorship check on `pmWzero`. -/
def pmW1 : PaymasterState :=
  match checkAndUpdateDailyLimit pmWzero 5 86401 with
  | .ok s => s
  | .error _ => pmWzero

/-- C7 counterexample: with the cap set to 0 by the owner, a new-window
sponsorship check still succeeds and sets the user's count to 1, so the
count exceeds the configured daily maximum and sponsorship is not refused
with `DailyLimitExceeded` — the claimed reachable-state invariant fails. -/
theorem dailyLimit_cap_zero_exceeded :
    (setMaxDailySponsored 1 0 pmW).isOk = true
  ∧ pmWzero.maxDailySponsored = 0
  ∧ (checkAndUpdateDailyLimit pmWzero 5 86401).isOk = true
  ∧ pmW1.sponsoredTxCount 5 = 1
  ∧ pmW1.maxDailySponsored = 0 := by
  refine ⟨?_, ?_, ?_, ?_, ?_⟩ <;> decide

/-! ## Trace lemmas for the strategy lifecycle -/

/-- Whether an operation is a `submitStrategy` call. -/
def VaultOp.isSubmitStrategy : VaultOp → Bool
  | .submitStrategy _ _ _ _ _ => true
  | _ => false

/-- Whether a vault call at timestamp `t` would write a fresh (unexecuted)
strategy record at fingerprint `f`: only a `submitStrategy` whose computed
fingerprint is `f` does.  Reusing a fingerprint requires repeating the
exact `(sender, targets, allocations, timestamp)` tuple, which is possible
because several transactions share one block timestamp. -/
def recreatesFingerprint (cm : CryptoModel) (f t : Nat) : VaultOp → Prop
  | .submitStrategy sender targets allocs _sig _period =>
      cm.fingerprint sender targets allocs t = f
  | _ => False

/-- A non-`submitStrategy` operation never recreates a fingerprint. -/
theorem not_recreates_of_not_submit (cm : CryptoModel) (f t : Nat) (op : VaultOp)
    (h : op.isSubmitStrategy = false) : ¬ recreatesFingerprint cm f t op := by
  cases op <;> simp_all [recreatesFingerprint, VaultOp.isSubmitStrategy]

/-- A successful vault call never changes the pause flag. -/
theorem runVault_ok_paused (cm : CryptoModel) (s : VaultState) (t : Nat) (op : VaultOp)
    (s' : VaultState) (h : runVault cm s t op = .ok s') : s'.paused = s.paused := by
  cases op <;> simp only [runVault] at h <;> (repeat' split at h) <;>
    (try (exact Except.noConfusion h)) <;>
    (simp only [Except.ok.injEq] at h; subst h; rfl)

/-- No vault operation changes the pause flag. -/
theorem stepVault_paused (cm : CryptoModel) (s : VaultState) (t : Nat) (op : VaultOp) :
    (stepVault cm s t op).paused = s.paused := by
  unfold stepVault
  cases hrun : runVault cm s t op with
  | error e => rfl
  | ok s' => exact runVault_ok_paused cm s t op s' hrun

/-- No trace of vault operations changes the pause flag. -/
theorem execTrace_paused (cm : CryptoModel) :
    ∀ (tr : List (Nat × VaultOp)) (s : VaultState),
      (execTrace cm s tr).paused = s.paused := by
  intro tr
  induction tr with
  | nil => intro s; rfl
  | cons p rest ih =>
    intro s
    obtain ⟨t, op⟩ := p
    calc (execTrace cm s ((t, op) :: rest)).paused
        = (stepVault cm s t op).paused := ih (stepVault cm s t op)
      _ = s.paused := stepVault_paused cm s t op

/-- Characterization of what a successful vault call can do to the
strategy record at a fingerprint `f` it does not recreate: leave it
unchanged, set its executed flag (an `executeStrategy f` success), or
replace it by an executed record whose stored hash is `f` (a
`triggerAutoRebalance` success targeting `f`). -/
theorem runVault_ok_strategies_char (cm : CryptoModel) (s : VaultState) (t : Nat)
    (op : VaultOp) (s' : VaultState) (f : Nat)
    (h : runVault cm s t op = .ok s') (hop : ¬ recreatesFingerprint cm f t op) :
    s'.strategies f = s.strategies f
  ∨ s'.strategies f = { s.strategies f with executed := true }
  ∨ ((s'.strategies f).executed = true ∧ (s'.strategies f).strategyHash = f) := by
  cases op with
  | createPortfolio sender dataRef auto thr =>
    simp only [runVault] at h
    repeat' split at h
    all_goals (try (exact Except.noConfusion h))
    simp only [Except.ok.injEq] at h
    subst h
    exact Or.inl rfl
  | updatePortfolio sender dataRef auto thr =>
    simp only [runVault] at h
    repeat' split at h
    all_goals (try (exact Except.noConfusion h))
    all_goals (simp only [Except.ok.injEq] at h; subst h; exact Or.inl rfl)
  | submitRiskAnalysis sender user report sig =>
    simp only [runVault] at h
    repeat' split at h
    all_goals (try (exact Except.noConfusion h))
    simp only [Except.ok.injEq] at h
    subst h
    exact Or.inl rfl
  | submitStrategy sender targets allocs sig period =>
    simp only [recreatesFingerprint] at hop
    simp only [runVault] at h
    repeat' split at h
    all_goals (try (exact Except.noConfusion h))
    simp only [Except.ok.injEq] at h
    subst h
    refine Or.inl ?_
    show (if f = cm.fingerprint sender targets allocs t then
        { strategyHash := cm.fingerprint sender targets allocs t, targetAssets := targets
          allocations := allocs, teeSignature := sig, validUntil := t + period
          executed := false }
      else s.strategies f) = s.strategies f
    rw [if_neg (fun hh => hop hh.symm)]
  | executeStrategy sender g =>
    simp only [runVault] at h
    repeat' split at h
    all_goals (try (exact Except.noConfusion h))
    simp only [Except.ok.injEq] at h
    subst h
    by_cases hfh : f = g
    · subst hfh
      refine Or.inr (Or.inl ?_)
      show (if f = f then { s.strategies f with executed := true } else s.strategies f)
          = { s.strategies f with executed := true }
      rw [if_pos rfl]
    · refine Or.inl ?_
      show (if f = g then { s.strategies g with executed := true } else s.strategies f)
          = s.strategies f
      rw [if_neg hfh]
  | triggerAutoRebalance sender user deviation strat sig =>
    simp only [runVault] at h
    repeat' split at h
    all_goals (try (exact Except.noConfusion h))
    simp only [Except.ok.injEq] at h
    subst h
    by_cases hfh : f = strat.strategyHash
    · refine Or.inr (Or.inr ?_)
      constructor
      · show (if f = strat.strategyHash then { strat with executed := true }
            else s.strategies f).executed = true
        rw [if_pos hfh]
      · show (if f = strat.strategyHash then { strat with executed := true }
            else s.strategies f).strategyHash = f
        rw [if_pos hfh]
        exact hfh.symm
    · refine Or.inl ?_
      show (if f = strat.strategyHash then { strat with executed := true }
          else s.strategies f) = s.strategies f
      rw [if_neg hfh]

/-- An executed strategy record stays executed under any vault operation
that does not recreate its fingerprint. -/
theorem stepVault_executed_mono (cm : CryptoModel) (s : VaultState) (t f : Nat)
    (op : VaultOp) (hop : ¬ recreatesFingerprint cm f t op)
    (hex : (s.strategies f).executed = true) :
    ((stepVault cm s t op).strategies f).executed = true := by
  unfold stepVault
  cases hrun : runVault cm s t op with
  | error e => exact hex
  | ok s' =>
    rcases runVault_ok_strategies_char cm s t op s' f hrun hop with hc | hc | hc
    · rw [hc]
      exact hex
    · rw [hc]
    · exact hc.1

/-- A strategy record with a nonzero stored hash keeps a nonzero stored
hash under any vault operation that does not recreate its (nonzero)
fingerprint. -/
theorem stepVault_hash_nonzero (cm : CryptoModel) (s : VaultState) (t f : Nat)
    (op : VaultOp) (hf : f ≠ 0) (hop : ¬ recreatesFingerprint cm f t op)
    (hx : (s.strategies f).strategyHash ≠ 0) :
    ((stepVault cm s t op).strategies f).strategyHash ≠ 0 := by
  unfold stepVault
  cases hrun : runVault cm s t op with
  | error e => exact hx
  | ok s' =>
    rcases runVault_ok_strategies_char cm s t op s' f hrun hop with hc | hc | hc
    · rw [hc]
      exact hx
    · rw [hc]
      exact hx
    · rw [hc.2]
      exact hf

/-- Along any trace none of whose operations recreates the (nonzero)
fingerprint `f`, an executed record at `f` with nonzero stored hash stays
executed with nonzero stored hash. -/
theorem execTrace_executed_stays (cm : CryptoModel) (f : Nat) (hf : f ≠ 0) :
    ∀ (tr : List (Nat × VaultOp)) (s : VaultState),
      (s.strategies f).executed = true → (s.strategies f).strategyHash ≠ 0 →
      (∀ p ∈ tr, ¬ recreatesFingerprint cm f p.1 p.2) →
      ((execTrace cm s tr).strategies f).executed = true
        ∧ ((execTrace cm s tr).strategies f).strategyHash ≠ 0 := by
  intro tr
  induction tr with
  | nil => intro s hex hx _; exact ⟨hex, hx⟩
  | cons p rest ih =>
    intro s hex hx htr
    obtain ⟨t, op⟩ := p
    have hop : ¬ recreatesFingerprint cm f t op := htr (t, op) (by simp)
    exact ih (stepVault cm s t op)
      (stepVault_executed_mono cm s t f op hop hex)
      (stepVault_hash_nonzero cm s t f op hf hop hx)
      (fun q hq => htr q (by simp [hq]))

/-- Inversion of a successful `executeStrategy` call: the vault was not
paused, the record was known, unexecuted and unexpired, and afterwards the
record is the same one with `executed` set. -/
theorem executeStrategy_ok_inv (cm : CryptoModel) (s : VaultState) (t c f : Nat)
    (hex : (runVault cm s t (.executeStrategy c f)).isOk = true) :
    s.paused = false ∧ (s.strategies f).strategyHash ≠ 0
  ∧ (s.strategies f).executed = false ∧ t ≤ (s.strategies f).validUntil
  ∧ (stepVault cm s t (.executeStrategy c f)).strategies f
      = { s.strategies f with executed := true } := by
  simp only [runVault] at hex
  split_ifs at hex with h₁ h₂ h₃ h₄
  · exact absurd hex (by simp [exceptError_isOk])
  · exact absurd hex (by simp [exceptError_isOk])
  · exact absurd hex (by simp [exceptError_isOk])
  · exact absurd hex (by simp [exceptError_isOk])
  have hrun : runVault cm s t (.executeStrategy c f) = .ok { s with
      strategies := fun a => if a = f then { s.strategies f with executed := true }
        else s.strategies a
      totalStrategiesExecuted := s.totalStrategiesExecuted + 1 } := by
    simp only [runVault]
    rw [if_neg h₁, if_neg h₂, if_neg h₃, if_neg h₄]
  refine ⟨by simpa using h₁, h₂, by simpa using h₃, by omega, ?_⟩
  rw [stepVault_of_ok hrun]
  show (if f = f then { s.strategies f with executed := true } else s.strategies f)
      = { s.strategies f with executed := true }
  rw [if_pos rfl]

/-! ## C2 — executed is monotone except through resubmission; expiry -/

/-- C2 (amended): for every non-`submitStrategy` vault operation, an
executed strategy stays executed; and every `executeStrategy` call after
the record's deadline fails with no state change — with the typed error
`StrategyExpired` whenever the vault is unpaused and the record is known
and unexecuted.  (The original claim fails on two paths it quantified over:
`triggerAutoRebalance` performs no deadline check and can mark a
past-deadline strategy executed — see the counterexample — and
`submitStrategy` can overwrite an executed record when the fingerprint
tuple repeats.) -/
theorem executed_monotone_and_expiry (cm : CryptoModel) (s : VaultState)
    (t f : Nat) (op : VaultOp) :
    (op.isSubmitStrategy = false → (s.strategies f).executed = true →
      ((stepVault cm s t op).strategies f).executed = true)
  ∧ (∀ c, t > (s.strategies f).validUntil →
      (runVault cm s t (.executeStrategy c f)).isOk = false
      ∧ stepVault cm s t (.executeStrategy c f) = s
      ∧ (s.paused = false → (s.strategies f).strategyHash ≠ 0 →
          (s.strategies f).executed = false →
          runVault cm s t (.executeStrategy c f) = .error .StrategyExpired)) := by
  constructor
  · intro hns hex
    exact stepVault_executed_mono cm s t f op (not_recreates_of_not_submit cm f t op hns) hex
  · intro c hexp
    have herr : ∃ e, runVault cm s t (.executeStrategy c f) = .error e := by
      simp only [runVault]
      split_ifs with h₁ h₂ h₃ <;> exact ⟨_, rfl⟩
    obtain ⟨e, he⟩ := herr
    refine ⟨by rw [he]; rfl, stepVault_of_error he, ?_⟩
    intro hp hh hne
    simp only [runVault]
    rw [if_neg (by simp [hp]), if_neg hh, if_neg (by simp [hne]), if_pos hexp]

/-- C2 witness: executing the expired strategy 5 of the concrete vault at
time 4000 fails `StrategyExpired` with no state change, and a portfolio
update does not clear the executed flag of the concrete executed
strategy. -/
theorem executed_monotone_and_expiry_witness :
    ((VaultOp.updatePortfolio 1 0 true 0).isSubmitStrategy = false
      ∧ (sV3.strategies 5).executed = true
      ∧ 4000 > (sV2.strategies 5).validUntil ∧ sV2.paused = false
      ∧ (sV2.strategies 5).strategyHash ≠ 0 ∧ (sV2.strategies 5).executed = false)
  ∧ ((stepVault cmW sV3 7 (.updatePortfolio 1 0 true 0)).strategies 5).executed = true
  ∧ (runVault cmW sV2 4000 (.executeStrategy 3 5)).isOk = false
  ∧ runVault cmW sV2 4000 (.executeStrategy 3 5) = .error .StrategyExpired :=
  ⟨⟨by decide, by decide, by decide, by decide, by decide, by decide⟩,
    (executed_monotone_and_expiry cmW sV3 7 5 (.updatePortfolio 1 0 true 0)).1
      (by decide) (by decide),
    ((executed_monotone_and_expiry cmW sV2 4000 5 (.updatePortfolio 1 0 true 0)).2 3
      (by decide)).1,
    ((executed_monotone_and_expiry cmW sV2 4000 5 (.updatePortfolio 1 0 true 0)).2 3
      (by decide)).2.2 (by decide) (by decide) (by decide)⟩

/-- The expired strategy record re-submitted to `triggerAutoRebalance` in
the C2 counterexample: same fingerprint 5 and same past deadline 100 as
the record stored in `sV2`. -/
def strat5 : Strategy :=
  { strategyHash := 5, targetAssets := [], allocations := []
    teeSignature := [], validUntil := 100, executed := false }

/-- C2 counterexample: in the concrete vault, strategy 5 is unexecuted and
past its deadline (100 < 4000), yet `triggerAutoRebalance` at time 4000 —
with a valid attester signature — succeeds and flips the record's
`executed` flag from false to true, because the auto-rebalance path never
checks the deadline.  This refutes the claim that a strategy past its
validity deadline never transitions to executed. -/
theorem triggerAutoRebalance_executes_expired :
    (sV2.strategies 5).executed = false
  ∧ 4000 > (sV2.strategies 5).validUntil
  ∧ (runVault cmW sV2 4000 (.triggerAutoRebalance 2 1 0 strat5 sig65)).isOk = true
  ∧ ((stepVault cmW sV2 4000 (.triggerAutoRebalance 2 1 0 strat5 sig65)).strategies 5).executed
      = true := by
  refine ⟨?_, ?_, ?_, ?_⟩ <;> decide

/-! ## C5 — isStrategyValid characterization and single execution -/

/-- C5 (amended): `isStrategyValid` is true exactly when the record is
known (nonzero stored hash), unexecuted, and not past its deadline; and
once `executeStrategy` succeeds on fingerprint `f`, then along any
continuation none of whose operations is a `submitStrategy` recreating
`f`, `isStrategyValid f` is false at every time and every further
`executeStrategy f` call fails with `StrategyAlreadyExecuted`.  (The
original unconditional "false at every later time / any second call fails"
is refuted by a same-timestamp resubmission, which overwrites the record —
see the counterexample.) -/
theorem isStrategyValid_iff_and_execute_once (cm : CryptoModel) (s : VaultState)
    (t f c : Nat) (tr : List (Nat × VaultOp))
    (hf : f ≠ 0)
    (hex : (runVault cm s t (.executeStrategy c f)).isOk = true)
    (htr : ∀ p ∈ tr, ¬ recreatesFingerprint cm f p.1 p.2) :
    (∀ (s' : VaultState) (now : Nat),
      isStrategyValid s' now f = true ↔
        ((s'.strategies f).strategyHash ≠ 0 ∧ (s'.strategies f).executed = false
          ∧ now ≤ (s'.strategies f).validUntil))
  ∧ (∀ now,
      isStrategyValid (execTrace cm (stepVault cm s t (.executeStrategy c f)) tr) now f
        = false)
  ∧ (∀ now c',
      runVault cm (execTrace cm (stepVault cm s t (.executeStrategy c f)) tr) now
        (.executeStrategy c' f) = .error .StrategyAlreadyExecuted) := by
  obtain ⟨hp, hh, hne, hle, hpost⟩ := executeStrategy_ok_inv cm s t c f hex
  have hstep : ((stepVault cm s t (.executeStrategy c f)).strategies f).executed = true := by
    rw [hpost]
  have hstephash :
      ((stepVault cm s t (.executeStrategy c f)).strategies f).strategyHash ≠ 0 := by
    rw [hpost]
    exact hh
  have hfinal := execTrace_executed_stays cm f hf tr _ hstep hstephash htr
  have hpfinal :
      (execTrace cm (stepVault cm s t (.executeStrategy c f)) tr).paused = false := by
    rw [execTrace_paused, stepVault_paused]
    exact hp
  refine ⟨?_, ?_, ?_⟩
  · intro s' now
    unfold isStrategyValid
    constructor
    · intro hb
      simp only [Bool.and_eq_true, bne_iff_ne, Bool.not_eq_true', decide_eq_true_eq] at hb
      exact ⟨hb.1.1, hb.1.2, hb.2⟩
    · intro hc
      simp only [Bool.and_eq_true, bne_iff_ne, Bool.not_eq_true', decide_eq_true_eq]
      exact ⟨⟨hc.1, hc.2.1⟩, hc.2.2⟩
  · intro now
    unfold isStrategyValid
    rw [hfinal.1]
    simp
  · intro now c'
    simp only [runVault]
    rw [if_neg (by simp [hpfinal]), if_neg hfinal.2, if_pos hfinal.1]

/-- C5 witness: on the concrete vault, executing strategy 5 succeeds, and
along the empty continuation `isStrategyValid` is false and a second
execution fails `StrategyAlreadyExecuted`. -/
theorem isStrategyValid_execute_once_witness :
    ((5 : Nat) ≠ 0 ∧ (runVault cmW sV2 0 (.executeStrategy 1 5)).isOk = true)
  ∧ isStrategyValid (execTrace cmW (stepVault cmW sV2 0 (.executeStrategy 1 5)) []) 0 5
      = false
  ∧ runVault cmW (execTrace cmW (stepVault cmW sV2 0 (.executeStrategy 1 5)) []) 3
      (.executeStrategy 9 5) = .error .StrategyAlreadyExecuted :=
  ⟨⟨by decide, by decide⟩,
    (isStrategyValid_iff_and_execute_once cmW sV2 0 5 1 [] (by decide) (by decide)
      (by simp)).2.1 0,
    (isStrategyValid_iff_and_execute_once cmW sV2 0 5 1 [] (by decide) (by decide)
      (by simp)).2.2 3 9⟩

/-- C5 counterexample: after a successful execution of strategy 5,
re-submitting the identical `(sender, targets, allocations)` tuple at the
same block timestamp recomputes the same fingerprint and overwrites the
record, so `isStrategyValid` becomes true again and a second
`executeStrategy` call succeeds — refuting "isValid is false at every later
time" and "any second execute call fails `StrategyAlreadyExecuted`". -/
theorem isStrategyValid_resurrected_after_resubmit :
    (runVault cmW sV2 0 (.executeStrategy 1 5)).isOk = true
  ∧ (sV3.strategies 5).executed = true
  ∧ isStrategyValid sV3 0 5 = false
  ∧ (runVault cmW sV3 0 (.submitStrategy 1 [] [] sig65 100)).isOk = true
  ∧ isStrategyValid sV4 0 5 = true
  ∧ (runVault cmW sV4 0 (.executeStrategy 2 5)).isOk = true := by
  refine ⟨?_, ?_, ?_, ?_, ?_, ?_⟩ <;> decide

end Phantom
